import Mathlib

/-!
Shallow embedding of the telemetry-to-causal-graph compiler of the
visionone dashboard: the process-chain builder (src/App.tsx, and the
older variant kept in the repository), the network-chain builder
(src/services/NetworkChain.tsx), the prompt-path deduplication
(formatPrompt) and the UI unique filter (uniqueDetections), together
with theorems settling the specification claims about them.
-/

namespace VisionOne

/-- Detection record (src/types.ts): open, sparse schema.  Only the fields
read by the graph builders and the deduplicators are modelled; every field
is optional, mirroring the vendor records where no field is guaranteed. -/
structure Detection where
  objectUser : Option String := none
  suser : Option String := none
  parentFilePath : Option String := none
  parentProcessName : Option String := none
  parentName : Option String := none
  processName : Option String := none
  processFilePath : Option String := none
  objectFilePath : Option String := none
  objectName : Option String := none
  objectCmd : Option String := none
  processCmd : Option String := none
  principalName : Option String := none
  suid : Option String := none
  endpointHostName : Option String := none
  userAgent : Option String := none
  osName : Option String := none
  request : Option String := none
  requestBase : Option String := none
  requestMethod : Option String := none
  dst : Option String := none
  dstLocation : Option String := none
  serverTls : Option String := none
  act : Option String := none
  ruleName : Option String := none
  urlCat : Option String := none
  score : Option Int := none
deriving Repr, DecidableEq

/-- JS string fallback `v || dflt` on a possibly absent string field:
`undefined` and the empty string are falsy. -/
def jsOr (v : Option String) (dflt : String) : String :=
  match v with
  | none => dflt
  | some s => if s = "" then dflt else s

/-- JS number fallback `v || dflt`: `undefined` and `0` are falsy. -/
def jsOrInt (v : Option Int) (dflt : Int) : Int :=
  match v with
  | none => dflt
  | some n => if n = 0 then dflt else n

/-- Truthiness of a possibly absent string field. -/
def truthy (v : Option String) : Bool :=
  match v with
  | none => false
  | some s => s ≠ ""

/-- A JS `a || b || c` chain used in a truthiness test and then as a string:
the first truthy field, `none` when every field in the chain is falsy. -/
def firstTruthy : List (Option String) → Option String
  | [] => none
  | v :: vs => if truthy v then v else firstTruthy vs

/-- JS `String.split` on a character class: split the character list at
every separator; a string with no separator yields one group, a trailing
separator yields a trailing empty group (as in JS). -/
def splitChars (p : Char → Bool) : List Char → List (List Char)
  | [] => [[]]
  | c :: cs =>
      let r := splitChars p cs
      if p c then [] :: r
      else
        match r with
        | [] => [[c]]
        | g :: gs => (c :: g) :: gs

/-- JS whitespace test for `String.trim` (the characters occurring in the
modelled data). -/
def isJsWhitespace (c : Char) : Bool :=
  c = ' ' || c = '\t' || c = '\n' || c = '\r'

/-- JS `String.trim` on a character list. -/
def trimChars (cs : List Char) : List Char :=
  ((cs.dropWhile isJsWhitespace).reverse.dropWhile isJsWhitespace).reverse

/-- ASCII lower-casing of one character (JS `toLowerCase` on the data in
scope). -/
def lowerChar (c : Char) : Char :=
  if 65 ≤ c.toNat ∧ c.toNat ≤ 90 then Char.ofNat (c.toNat + 32) else c

/-- ASCII upper-casing of one character (JS `toUpperCase` on the data in
scope). -/
def upperChar (c : Char) : Char :=
  if 97 ≤ c.toNat ∧ c.toNat ≤ 122 then Char.ofNat (c.toNat - 32) else c

/-- JS `String.toLowerCase`. -/
def jsToLower (s : String) : String := String.mk (s.data.map lowerChar)

/-- JS `String.toUpperCase`. -/
def jsToUpper (s : String) : String := String.mk (s.data.map upperChar)

/-- JS `String.endsWith`. -/
def jsEndsWith (s suffix : String) : Bool := suffix.data.isSuffixOf s.data

/-- Substring search over character lists (JS `String.includes`). -/
def containsSub (needle : List Char) : List Char → Bool
  | [] => needle.isPrefixOf []
  | c :: rest => needle.isPrefixOf (c :: rest) || containsSub needle rest

/-- JS `String.includes`. -/
def jsIncludes (s sub : String) : Bool := containsSub sub.data s.data

/-- `carveString` (src/App.tsx): last path segment (JS
`path.split(/[\\/]/).pop() || path`), double quotes replaced by single
quotes, trimmed. -/
def carveString (path : String) : String :=
  let parts := splitChars (fun c => c = '\\' || c = '/') path.data
  let base := parts.getLastD []
  String.mk (trimChars ((if base = [] then path.data else base).map
    (fun c => if c = '\"' then '\'' else c)))

/-- `getIcon` (src/App.tsx): icon chosen by file-extension sniff. -/
def getIcon (path : String) : String :=
  let lower := jsToLower path
  if jsEndsWith lower ".exe" then "⚙️ "
  else if jsEndsWith lower ".dll" then "📦 "
  else if jsEndsWith lower ".ps1" || jsEndsWith lower ".psm1" then "🐚 "
  else if jsEndsWith lower ".js" then "📜 "
  else "📄 "

/-- JS `Map.set`: insertion-ordered association list, overwriting in place
when the key is already bound. -/
def setAssoc : List (String × String) → String → String → List (String × String)
  | [], k, v => [(k, v)]
  | (k0, v0) :: rest, k, v =>
      if k0 = k then (k, v) :: rest else (k0, v0) :: setAssoc rest k v

/-- JS `Map.get` / `Map.has` on the association-list model. -/
def lookupAssoc : List (String × String) → String → Option String
  | [], _ => none
  | (k0, v0) :: rest, k => if k0 = k then some v0 else lookupAssoc rest k

/-- JS `Set.add`: append the element unless it is already present. -/
def addEdge (edges : List String) (e : String) : List String :=
  if e ∈ edges then edges else edges ++ [e]

/-- Per-compilation builder state: the key→id cache and its counter
(`getSafeId`), the node map (id → label) and the edge set, all freshly
allocated per compilation call. -/
structure BuildState where
  keyToId : List (String × String) := []
  counter : Nat := 0
  nodes : List (String × String) := []
  edges : List String := []
deriving Repr, DecidableEq

/-- The fresh per-call state: empty caches, counter 0. -/
def freshState : BuildState := {}

/-- `getSafeId`: return the cached id for a semantic key, or assign the next
synthetic id (`idPre` followed by the counter) on first occurrence. -/
def getSafeId (idPre : String) (s : BuildState) (key : String) : String × BuildState :=
  match lookupAssoc s.keyToId key with
  | some id => (id, s)
  | none =>
      let id := idPre ++ toString s.counter
      (id, { s with keyToId := s.keyToId ++ [(key, id)], counter := s.counter + 1 })

/-- The `getSafeId` + `nodes.set` idiom: resolve the id for a key and bind
its label in the node map. -/
def emitNode (idPre : String) (s : BuildState) (key label : String) : String × BuildState :=
  let r := getSafeId idPre s key
  (r.1, { r.2 with nodes := setAssoc r.2.nodes r.1 label })

/-- The `edges.add` idiom on the builder state. -/
def emitEdge (s : BuildState) (e : String) : BuildState :=
  { s with edges := addEdge s.edges e }

/-- One iteration of the process-chain `telemetryBatch.forEach` body in
src/App.tsx: skip the record once the edge set is over 100; otherwise
resolve actor / parent / process / object / command keys and emit the
chain nodes and edges.  Note the process key is resolved from
`processName` alone in this version. -/
def processStep (s : BuildState) (d : Detection) : BuildState :=
  if s.edges.length > 100 then s else
  let user := jsOr d.objectUser (jsOr d.suser "System")
  let parent := firstTruthy [d.parentFilePath, d.parentProcessName, d.parentName]
  let process := firstTruthy [d.processName]
  let object := firstTruthy [d.objectFilePath, d.objectName]
  let objectCmd := firstTruthy [d.objectCmd, d.processCmd]
  let ru := emitNode "n" s ("u_" ++ user) ("👤 " ++ user)
  let userId := ru.1
  let s1 := ru.2
  match parent with
  | some p =>
      let rp := emitNode "n" s1 ("p_" ++ p) ("⚙️ " ++ carveString p)
      let s2 := emitEdge rp.2 (userId ++ " --> " ++ rp.1)
      match process with
      | some pr =>
          let rpr := emitNode "n" s2 ("pr_" ++ pr) (getIcon pr ++ carveString pr)
          let s3 := emitEdge rpr.2 (rp.1 ++ " --> " ++ rpr.1)
          let s4 := match object with
            | some o =>
                let ro := emitNode "n" s3 ("obj_" ++ o) ("📄 " ++ carveString o)
                emitEdge ro.2 (rpr.1 ++ " --> " ++ ro.1)
            | none => s3
          match objectCmd with
          | some c =>
              let rc := emitNode "n" s4 ("cmd_" ++ c) ("⚙️ " ++ carveString c)
              emitEdge rc.2 (rpr.1 ++ " --> " ++ rc.1)
          | none => s4
      | none => s2
  | none =>
      match process with
      | some pr =>
          let rpr := emitNode "n" s1 ("pr_" ++ pr) (getIcon pr ++ carveString pr)
          let s2 := emitEdge rpr.2 (userId ++ " --> " ++ rpr.1)
          let s3 := match object with
            | some o =>
                let ro := emitNode "n" s2 ("obj_" ++ o) ("📄 " ++ carveString o)
                emitEdge ro.2 (rpr.1 ++ " --> " ++ ro.1)
            | none => s2
          match objectCmd with
          | some c =>
              let rc := emitNode "n" s3 ("cmd_" ++ c) ("⚙️ " ++ carveString c)
              emitEdge rc.2 (rpr.1 ++ " --> " ++ rc.1)
          | none => s3
      | none => s1

/-- The compiled graph: node list (insertion order, id → label) and the
edge set (insertion order, duplicate-free). -/
structure Graph where
  nodes : List (String × String)
  edges : List String
deriving Repr, DecidableEq

/-- Fold of `processStep` over the sampled batch from a given initial
builder state. -/
def processRunFrom (s0 : BuildState) (batch : List Detection) : BuildState :=
  batch.foldl processStep s0

/-- The node/edge part of `mermaidDefinition` in src/App.tsx, with the
per-call id cache made explicit: null on inactive/empty input, sample the
first 150 records, fold the chain builder, null again when no nodes were
produced. -/
def processGraphFrom (s0 : BuildState) (detections : List Detection) (isActive : Bool) :
    Option Graph :=
  if isActive = false ∨ detections.length = 0 then none
  else
    let batch := detections.take 150
    let s := processRunFrom s0 batch
    if s.nodes.length = 0 then none else some ⟨s.nodes, s.edges⟩

/-- The process-chain compilation as called: fresh id cache per call. -/
def processGraph (detections : List Detection) (isActive : Bool) : Option Graph :=
  processGraphFrom freshState detections isActive

/-- The textual serialization of a process-chain graph (`graph LR`, node
declarations, then edges), as built in src/App.tsx. -/
def serializeProcess (g : Graph) : String :=
  let d0 := "graph LR\n"
  let d1 := g.nodes.foldl (fun acc p => acc ++ "    " ++ p.1 ++ "[\"" ++ p.2 ++ "\"]\n") d0
  g.edges.foldl (fun acc e => acc ++ "    " ++ e ++ "\n") d1

/-- `mermaidDefinition` of the ProcessChain component in src/App.tsx. -/
def processMermaidDefinition (detections : List Detection) (isActive : Bool) : Option String :=
  (processGraph detections isActive).map serializeProcess

/-- One iteration of the process-chain builder of the older App variant
(src/unnamed/part_011): the process key is `processFilePath` with
`processName` fallback, ids are prefixed `node_`, the command branch uses
an `obj_` key and a document icon, and the parentless branch emits no
object or command nodes. -/
def processStep011 (s : BuildState) (d : Detection) : BuildState :=
  if s.edges.length > 100 then s else
  let user := jsOr d.objectUser (jsOr d.suser "System")
  let parent := firstTruthy [d.parentFilePath, d.parentProcessName, d.parentName]
  let process := firstTruthy [d.processFilePath, d.processName]
  let object := firstTruthy [d.objectFilePath, d.objectName]
  let objectCmd := firstTruthy [d.objectCmd, d.processCmd]
  let ru := emitNode "node_" s ("u_" ++ user) ("👤 " ++ user)
  let userId := ru.1
  let s1 := ru.2
  match parent with
  | some p =>
      let rp := emitNode "node_" s1 ("p_" ++ p) ("⚙️ " ++ carveString p)
      let s2 := emitEdge rp.2 (userId ++ " --> " ++ rp.1)
      match process with
      | some pr =>
          let rpr := emitNode "node_" s2 ("pr_" ++ pr) (getIcon pr ++ carveString pr)
          let s3 := emitEdge rpr.2 (rp.1 ++ " --> " ++ rpr.1)
          let s4 := match object with
            | some o =>
                let ro := emitNode "node_" s3 ("obj_" ++ o) ("📄 " ++ carveString o)
                emitEdge ro.2 (rpr.1 ++ " --> " ++ ro.1)
            | none => s3
          match objectCmd with
          | some c =>
              let rc := emitNode "node_" s4 ("obj_" ++ c) ("📄 " ++ carveString c)
              emitEdge rc.2 (rpr.1 ++ " --> " ++ rc.1)
          | none => s4
      | none => s2
  | none =>
      match process with
      | some pr =>
          let rpr := emitNode "node_" s1 ("pr_" ++ pr) (getIcon pr ++ carveString pr)
          emitEdge rpr.2 (userId ++ " --> " ++ rpr.1)
      | none => s1

/-- The node/edge part of `mermaidDefinition` in src/unnamed/part_011. -/
def processGraph011 (detections : List Detection) (isActive : Bool) : Option Graph :=
  if isActive = false ∨ detections.length = 0 then none
  else
    let batch := detections.take 150
    let s := batch.foldl processStep011 freshState
    if s.nodes.length = 0 then none else some ⟨s.nodes, s.edges⟩

/-- `getBrowser` (src/services/NetworkChain.tsx): fixed browser label from
a user-agent content sniff. -/
def getBrowser (ua : String) : String :=
  if jsIncludes ua "Edg" then "Edge Browser"
  else if jsIncludes ua "Chrome" then "Chrome Browser"
  else if jsIncludes ua "Firefox" then "Firefox"
  else if jsIncludes ua "Safari" then "Safari"
  else "Generic Browser"

/-- `getRisk` (src/services/NetworkChain.tsx): risk tier from the score. -/
def getRisk (score : Int) : String :=
  if score ≥ 90 then "🔴 High Risk"
  else if score ≥ 70 then "🟡 Medium Risk"
  else "🟢 Low Risk"

/-- `getActLabel` (src/services/NetworkChain.tsx): verdict glyph from the
action value. -/
def getActLabel (act : String) : String :=
  let a := jsOr (some (jsToLower act)) ""
  if a = "allow" then "✅ ALLOWED"
  else if a = "block" then "❌ BLOCKED"
  else if a = "alert" then "⚠️ ALERTED"
  else jsOr (some (jsToUpper act)) "UNKNOWN"

/-- `getPolicyClass` (src/services/NetworkChain.tsx): style class of the
policy node from the action value. -/
def getPolicyClass (act : String) : String :=
  let a := jsOr (some (jsToLower act)) ""
  if a = "allow" then "allowNode"
  else if a = "block" then "blockNode"
  else if a = "alert" then "alertNode"
  else "policyNode"

/-- The network/SWG eligibility filter `d.request || d.dst || d.principalName`
applied before sampling in src/services/NetworkChain.tsx. -/
def netEligible (d : Detection) : Bool :=
  truthy d.request || truthy d.dst || truthy d.principalName

/-- Per-call builder state of the network chain: as `BuildState` plus the
id → style-class map. -/
structure NetState where
  keyToId : List (String × String) := []
  counter : Nat := 0
  nodes : List (String × String) := []
  nodeClasses : List (String × String) := []
  edges : List String := []
deriving Repr, DecidableEq

/-- The fresh per-call network-chain state. -/
def freshNetState : NetState := {}

/-- `getSafeId` of the network chain (ids `n0`, `n1`, …). -/
def netGetSafeId (s : NetState) (key : String) : String × NetState :=
  match lookupAssoc s.keyToId key with
  | some id => (id, s)
  | none =>
      let id := "n" ++ toString s.counter
      (id, { s with keyToId := s.keyToId ++ [(key, id)], counter := s.counter + 1 })

/-- The `getSafeId` + `nodes.set` + `nodeClasses.set` idiom of the network
chain. -/
def netEmitNode (s : NetState) (key label cls : String) : String × NetState :=
  let r := netGetSafeId s key
  (r.1, { r.2 with nodes := setAssoc r.2.nodes r.1 label,
                   nodeClasses := setAssoc r.2.nodeClasses r.1 cls })

/-- One iteration of the `networkBatch.forEach` body in
src/services/NetworkChain.tsx: resolve every field through its sentinel
fallback, bind the five stage nodes (overwriting labels in place), and add
the four labeled edges. -/
def networkStep (s : NetState) (d : Detection) : NetState :=
  let userStr := jsOr d.principalName (jsOr d.suid "Anonymous")
  let hostStr := jsOr d.endpointHostName "Unknown Host"
  let uaStr := jsOr d.userAgent ""
  let osStr := jsOr d.osName "Unknown OS"
  let reqBase := jsOr d.requestBase "unknown.domain"
  let reqMethod := jsOr d.requestMethod "GET"
  let dstIp := jsOr d.dst "0.0.0.0"
  let dstLoc := jsOr d.dstLocation "INT"
  let tls := jsOr d.serverTls "No TLS"
  let action := jsOr d.act "Allow"
  let rule := jsOr d.ruleName "Default Rule"
  let cat := jsOr d.urlCat "Miscellaneous"
  let score := jsOrInt d.score 0
  let ru := netEmitNode s ("u_" ++ userStr ++ "_" ++ hostStr)
    ("👤 " ++ userStr ++ "<br/>" ++ hostStr) "userNode"
  let rb := netEmitNode ru.2 ("b_" ++ uaStr ++ "_" ++ osStr)
    ("🌐 " ++ getBrowser uaStr ++ "<br/>" ++ osStr) "browserNode"
  let rr := netEmitNode rb.2 ("r_" ++ reqMethod ++ "_" ++ reqBase)
    ("📨 " ++ reqMethod ++ " " ++ reqBase) "requestNode"
  let rd := netEmitNode rr.2 ("d_" ++ dstIp)
    ("📍 " ++ dstIp ++ "<br/>" ++ dstLoc ++ " · " ++ tls) "destNode"
  let rp := netEmitNode rd.2
    ("p_" ++ action ++ "_" ++ rule ++ "_" ++ toString score ++ "_" ++ cat)
    ("🛡️ " ++ getActLabel action ++ "<br/>" ++ rule ++ "<br/>" ++ cat ++
      " · Score: " ++ toString score ++ " (" ++ getRisk score ++ ")")
    (getPolicyClass action)
  let s5 := rp.2
  let s6 := { s5 with edges := addEdge s5.edges (ru.1 ++ " -->|User Activity| " ++ rb.1) }
  let s7 := { s6 with edges := addEdge s6.edges (rb.1 ++ " -->|Browser Request| " ++ rr.1) }
  let s8 := { s7 with edges := addEdge s7.edges (rr.1 ++ " -->|Network Traffic| " ++ rd.1) }
  { s8 with edges := addEdge s8.edges (rd.1 ++ " -->|Policy Evaluation| " ++ rp.1) }

/-- The compiled network-chain graph: node list, style-class list and edge
set. -/
structure NetGraph where
  nodes : List (String × String)
  nodeClasses : List (String × String)
  edges : List String
deriving Repr, DecidableEq

/-- The node/edge part of `mermaidDefinition` in
src/services/NetworkChain.tsx, with the per-call id cache made explicit:
null on inactive/empty input, filter to network/SWG records, sample the
first 50 of those, null again when the batch is empty, else fold the chain
builder. -/
def networkGraphFrom (s0 : NetState) (detections : List Detection) (isActive : Bool) :
    Option NetGraph :=
  if isActive = false ∨ detections.length = 0 then none
  else
    let batch := (detections.filter netEligible).take 50
    if batch.length = 0 then none
    else
      let s := batch.foldl networkStep s0
      some ⟨s.nodes, s.nodeClasses, s.edges⟩

/-- The network-chain compilation as called: fresh id cache per call. -/
def networkGraph (detections : List Detection) (isActive : Bool) : Option NetGraph :=
  networkGraphFrom freshNetState detections isActive

/-- The textual serialization of a network-chain graph (`graph TD`, the
fixed classDef block, node declarations, class assignments, then edges), as
built in src/services/NetworkChain.tsx. -/
def serializeNetwork (g : NetGraph) : String :=
  let d0 := "graph TD\n"
    ++ "    classDef userNode fill:#e1f5fe,stroke:#01579b,stroke-width:2px,color:#333\n"
    ++ "    classDef browserNode fill:#f3e5f5,stroke:#4a148c,stroke-width:2px,color:#333\n"
    ++ "    classDef requestNode fill:#e8f5e8,stroke:#1b5e20,stroke-width:2px,color:#333\n"
    ++ "    classDef destNode fill:#fff3e0,stroke:#e65100,stroke-width:2px,color:#333\n"
    ++ "    classDef policyNode fill:#eeeeee,stroke:#616161,stroke-width:2px,color:#333\n"
    ++ "    classDef allowNode fill:#c8e6c9,stroke:#2e7d32,stroke-width:3px,color:#333\n"
    ++ "    classDef blockNode fill:#ffcdd2,stroke:#c62828,stroke-width:3px,color:#333\n"
    ++ "    classDef alertNode fill:#fff9c4,stroke:#fbc02d,stroke-width:3px,color:#333\n"
  let d1 := g.nodes.foldl (fun acc p => acc ++ "    " ++ p.1 ++ "[\"" ++ p.2 ++ "\"]\n") d0
  let d2 := g.nodes.foldl (fun acc p =>
    match lookupAssoc g.nodeClasses p.1 with
    | some cls => acc ++ "    class " ++ p.1 ++ " " ++ cls ++ ";\n"
    | none => acc) d1
  g.edges.foldl (fun acc e => acc ++ "    " ++ e ++ "\n") d2

/-- `mermaidDefinition` of the NetworkChain component. -/
def networkMermaidDefinition (detections : List Detection) (isActive : Bool) : Option String :=
  (networkGraph detections isActive).map serializeNetwork

/-- JS `String.trim`. -/
def jsTrim (s : String) : String := String.mk (trimChars s.data)

/-- The resolved deduplication key of `formatPrompt`
(src/unnamed/part_001): `detection.processName || detection.processFilePath
|| ''`. -/
def promptKey (d : Detection) : String :=
  jsOr d.processName (jsOr d.processFilePath "")

/-- The single-pass first-per-key loop of `formatPrompt`
(src/unnamed/part_001), with the `seenProcessNames` set made an explicit
argument: keep a record when its resolved key has not been seen, else drop
it. -/
def dedupBy (key : Detection → String) : List Detection → List String → List Detection
  | [], _ => []
  | d :: ds, seen =>
      if key d ∈ seen then dedupBy key ds seen
      else d :: dedupBy key ds (key d :: seen)

/-- The deduplicated, size-limited sample dumped into the prompt by
`formatPrompt` (src/unnamed/part_001): first-per-key pass, then
`uniqueDetections.slice(0, limit)`. -/
def formatPromptSample (detections : List Detection) (limit : Nat) : List Detection :=
  (dedupBy promptKey detections []).take limit

/-- Modelled from the spec: the Deduplicator contract of §4.2, in the
spec's words — iterate the input once in order and keep the first record
seen per distinct key value.  Stated for comparison against the
`formatPrompt` loop taken from the source. -/
def specFirstPerKey (key : Detection → String) (xs : List Detection) : List Detection :=
  xs.foldl (fun acc d => if key d ∈ acc.map key then acc else acc ++ [d]) []

/-- The `uniqueDetections` loop of src/App.tsx, with the `seen` set made an
explicit argument and the dynamic field access `detection[uniqueField]`
modelled as the accessor `f`: a record whose value is absent or falsy is
skipped outright; otherwise the comparison key is the lower-cased, trimmed
string value. -/
def uniqueFilter (f : Detection → Option String) : List Detection → List String → List Detection
  | [], _ => []
  | d :: ds, seen =>
      match f d with
      | none => uniqueFilter f ds seen
      | some v =>
          if v = "" then uniqueFilter f ds seen
          else
            let key := jsTrim (jsToLower v)
            if key ∈ seen then uniqueFilter f ds seen
            else d :: uniqueFilter f ds (key :: seen)

/-- `uniqueDetections` of src/App.tsx including its enable guard. -/
def uniqueDetections (enabled : Bool) (f : Detection → Option String)
    (filteredDetections : List Detection) : List Detection :=
  if enabled = false then filteredDetections else uniqueFilter f filteredDetections []

/-- The comparison key actually used by `uniqueFilter` for a record:
`none` when the record is skipped as keyless/falsy. -/
def uniqueKeyOf (f : Detection → Option String) (d : Detection) : Option String :=
  match f d with
  | none => none
  | some v => if v = "" then none else some (jsTrim (jsToLower v))

/-! Concrete inputs used by the claim theorems. -/

/-- The simple-chain scenario record of the spec: only `suser`,
`parentFilePath`, `processFilePath` and `objectFilePath` are set. -/
def scenarioRec : Detection :=
  { suser := some "alice", parentFilePath := some "C:\\Win\\explorer.exe",
    processFilePath := some "C:\\Win\\cmd.exe", objectFilePath := some "C:\\tmp\\a.txt" }

/-- Record family for the edge-cap test: each index yields five fresh keys
and four fresh edges. -/
def capRec (i : Nat) : Detection :=
  { suser := some ("u" ++ toString i), parentFilePath := some ("p" ++ toString i),
    processName := some ("q" ++ toString i), objectFilePath := some ("o" ++ toString i),
    objectCmd := some ("c" ++ toString i) }

/-- 26 records that would naturally produce 26 · 4 = 104 distinct
process-chain edges. -/
def capInput : List Detection := (List.range 26).map capRec

/-- A network record with a fixed destination IP and varying label-only
fields (`dstLocation`, `serverTls`). -/
def destRec (loc tls : String) : Detection :=
  { dst := some "9.9.9.9", dstLocation := some loc, serverTls := some tls }

/-- A record that is not network-eligible (no `request`, `dst` or
`principalName`). -/
def fillerRec : Detection := { suser := some "x" }

/-- A network-eligible record. -/
def eligibleRec : Detection := { dst := some "1.2.3.4" }

/-- 50 ineligible records followed by one eligible record at input
position 51. -/
def posInput : List Detection := (List.replicate 50 fillerRec) ++ [eligibleRec]

/-- A network record carrying only a destination and a score. -/
def scoreRec (n : Int) : Detection := { dst := some "9.9.9.9", score := some n }

/-! Claim theorems. -/

/-- C1.  The claim states the process-stage key of the process-chain
builder resolves as `processFilePath`, else `processName`, so the scenario
record yields 4 nodes and 3 edges.  The shipped builder in src/App.tsx
reads `processName` alone, so the scenario record (which carries only
`processFilePath`) stops after the parent stage: 2 nodes and 1 edge.  The
older builder kept in src/unnamed/part_011 resolves the key as the claim
states and yields exactly the 4 nodes and 3 edges of the scenario. -/
theorem processKey_divergence :
    processGraph [scenarioRec] true =
      some ⟨[("n0", "👤 alice"), ("n1", "⚙️ explorer.exe")], ["n0 --> n1"]⟩
    ∧ processGraph011 [scenarioRec] true =
      some ⟨[("node_0", "👤 alice"), ("node_1", "⚙️ explorer.exe"),
             ("node_2", "⚙️ cmd.exe"), ("node_3", "📄 a.txt")],
            ["node_0 --> node_1", "node_1 --> node_2", "node_2 --> node_3"]⟩ :=
  ⟨by decide, by decide⟩

/-- C6.  Compiling an empty sequence with active=true, or any sequence
with active=false, yields the defined "no graph" result (`none`) for both
the process-chain and the network-chain builders. -/
theorem empty_or_inactive_no_graph :
    processMermaidDefinition [] true = none
    ∧ (∀ xs : List Detection, processMermaidDefinition xs false = none)
    ∧ networkMermaidDefinition [] true = none
    ∧ (∀ xs : List Detection, networkMermaidDefinition xs false = none) := by
  refine ⟨rfl, fun xs => ?_, rfl, fun xs => ?_⟩ <;>
    simp [processMermaidDefinition, networkMermaidDefinition, processGraph,
      networkGraph, processGraphFrom, networkGraphFrom]

/-- C5.  Determinism: two compilations of the same input with the same
active flag, each starting from an independently allocated fresh id cache,
produce identical node id→label mappings, identical edge sets, and
byte-identical textual graph descriptions, for both builders. -/
theorem compile_deterministic (s1 s2 : BuildState) (t1 t2 : NetState)
    (xs : List Detection) (a : Bool)
    (h1 : s1 = freshState) (h2 : s2 = freshState)
    (h3 : t1 = freshNetState) (h4 : t2 = freshNetState) :
    processGraphFrom s1 xs a = processGraphFrom s2 xs a
    ∧ networkGraphFrom t1 xs a = networkGraphFrom t2 xs a
    ∧ (processGraphFrom s1 xs a).map serializeProcess
        = (processGraphFrom s2 xs a).map serializeProcess
    ∧ (networkGraphFrom t1 xs a).map serializeNetwork
        = (networkGraphFrom t2 xs a).map serializeNetwork := by
  subst h1; subst h2; subst h3; subst h4
  exact ⟨rfl, rfl, rfl, rfl⟩

/-- Witness for C5 at a concrete input. -/
theorem compile_deterministic_witness :
    processGraphFrom freshState [scenarioRec] true = processGraphFrom freshState [scenarioRec] true
    ∧ networkGraphFrom freshNetState [scenarioRec] true
        = networkGraphFrom freshNetState [scenarioRec] true
    ∧ (processGraphFrom freshState [scenarioRec] true).map serializeProcess
        = (processGraphFrom freshState [scenarioRec] true).map serializeProcess
    ∧ (networkGraphFrom freshNetState [scenarioRec] true).map serializeNetwork
        = (networkGraphFrom freshNetState [scenarioRec] true).map serializeNetwork :=
  compile_deterministic freshState freshState freshNetState freshNetState
    [scenarioRec] true rfl rfl rfl rfl

/-- C3, counterexample.  The claim says a node's label is fixed at first
assignment: two network records with the same destination IP but different
`dstLocation`/`serverTls` should leave the destination label as first
assigned.  In the code `nodes.set` overwrites on every occurrence, so the
compiled label is the one of the second record, not the first. -/
theorem label_last_wins_counterexample :
    (networkGraph [destRec "US" "TLS 1.2", destRec "DE" "TLS 1.3"] true).map
        (fun g => lookupAssoc g.nodes "n3")
      = some (some "📍 9.9.9.9<br/>DE · TLS 1.3")
    ∧ ("📍 9.9.9.9<br/>DE · TLS 1.3" : String) ≠ "📍 9.9.9.9<br/>US · TLS 1.2" :=
  ⟨by decide, by decide⟩

/-- Re-binding a key in the JS-Map model returns the new value. -/
lemma lookupAssoc_setAssoc (m : List (String × String)) (k v : String) :
    lookupAssoc (setAssoc m k v) k = some v := by
  induction m with
  | nil => simp [setAssoc, lookupAssoc]
  | cons p rest ih =>
      obtain ⟨k0, v0⟩ := p
      by_cases h : k0 = k
      · simp [setAssoc, lookupAssoc, h]
      · simp [setAssoc, lookupAssoc, h, ih]

/-- C3, amended.  A node's label is not fixed at first assignment: the
builder's `nodes.set` overwrites the binding on every subsequent
occurrence of the same key, so the compiled label is the one of the last
record producing the key.  In particular, two network records with the
same destination IP but different `dstLocation`/`serverTls` leave the
destination node's label as last assigned. -/
theorem label_last_wins :
    (∀ (nodes : List (String × String)) (id l1 l2 : String),
        lookupAssoc (setAssoc (setAssoc nodes id l1) id l2) id = some l2)
    ∧ (networkGraph [destRec "US" "TLS 1.2", destRec "DE" "TLS 1.3"] true).map
        (fun g => lookupAssoc g.nodes "n3")
      = some (some "📍 9.9.9.9<br/>DE · TLS 1.3") :=
  ⟨fun nodes id l1 l2 => lookupAssoc_setAssoc (setAssoc nodes id l1) id l2, by decide⟩

/-- `Set.add` grows the edge set by at most one element. -/
lemma addEdge_length_le (es : List String) (e : String) :
    (addEdge es e).length ≤ es.length + 1 := by
  unfold addEdge; split <;> simp

/-- Two chained `Set.add` calls grow the edge set by at most two. -/
lemma addEdge2_le (l : List String) (e1 e2 : String) :
    (addEdge (addEdge l e1) e2).length ≤ l.length + 2 := by
  have h1 := addEdge_length_le l e1
  have h2 := addEdge_length_le (addEdge l e1) e2
  omega

/-- Three chained `Set.add` calls grow the edge set by at most three. -/
lemma addEdge3_le (l : List String) (e1 e2 e3 : String) :
    (addEdge (addEdge (addEdge l e1) e2) e3).length ≤ l.length + 3 := by
  have h1 := addEdge2_le l e1 e2
  have h2 := addEdge_length_le (addEdge (addEdge l e1) e2) e3
  omega

/-- Four chained `Set.add` calls grow the edge set by at most four. -/
lemma addEdge4_le (l : List String) (e1 e2 e3 e4 : String) :
    (addEdge (addEdge (addEdge (addEdge l e1) e2) e3) e4).length ≤ l.length + 4 := by
  have h1 := addEdge3_le l e1 e2 e3
  have h2 := addEdge_length_le (addEdge (addEdge (addEdge l e1) e2) e3) e4
  omega

/-- Binding a node never touches the edge set. -/
lemma emitNode_edges (p : String) (s : BuildState) (k l : String) :
    ((emitNode p s k l).2).edges = s.edges := by
  unfold emitNode getSafeId
  cases h : lookupAssoc s.keyToId k <;> simp [h]

/-- One process-chain record adds at most four edges. -/
lemma processStep_edges_le (s : BuildState) (d : Detection) :
    (processStep s d).edges.length ≤ s.edges.length + 4 := by
  unfold processStep
  split
  · omega
  · simp only [emitEdge, emitNode_edges]
    split <;> (try split) <;> (try split) <;> (try split) <;>
      simp only [emitEdge, emitNode_edges] <;>
      first
        | omega
        | exact le_trans (addEdge_length_le _ _) (by omega)
        | exact le_trans (addEdge2_le _ _ _) (by omega)
        | exact le_trans (addEdge3_le _ _ _ _) (by omega)
        | exact le_trans (addEdge4_le _ _ _ _ _) (by omega)

/-- A record is skipped outright once the edge set is over 100. -/
lemma processStep_skip (s : BuildState) (d : Detection) (h : s.edges.length > 100) :
    processStep s d = s := by
  unfold processStep; rw [if_pos h]

/-- Invariant of the batch fold: the edge set never exceeds 104 entries
(at most 100 at the start of a processed record, plus at most 4 from that
record). -/
lemma processRun_edges_le (batch : List Detection) :
    ∀ s0 : BuildState, s0.edges.length ≤ 104 →
      (processRunFrom s0 batch).edges.length ≤ 104 := by
  induction batch with
  | nil => intro s0 h; exact h
  | cons d ds ih =>
      intro s0 h
      have hfold : processRunFrom s0 (d :: ds) = processRunFrom (processStep s0 d) ds := by
        simp [processRunFrom]
      rw [hfold]
      apply ih
      by_cases hc : s0.edges.length > 100
      · rw [processStep_skip s0 d hc]; exact h
      · have := processStep_edges_le s0 d; omega

/-- C2, amended.  The edge cap is checked only at record boundaries
(`edges.size > 100` skips the record) and one record adds at most four
edges, so a compiled process-chain graph has at most 104 edges — the set
can exceed 100, it never reaches 105. -/
theorem process_edge_cap (xs : List Detection) (g : Graph)
    (h : processGraph xs true = some g) : g.edges.length ≤ 104 := by
  unfold processGraph processGraphFrom at h
  by_cases hx : xs.length = 0
  · simp [hx] at h
  · simp only [hx] at h
    split at h
    · simp at h
    · split at h
      · exact absurd h (by simp)
      · cases h
        exact processRun_edges_le (xs.take 150) freshState (by simp [freshState])

/-- Witness for C2 at a concrete input. -/
theorem process_edge_cap_witness :
    ∃ g : Graph, processGraph [scenarioRec] true = some g ∧ g.edges.length ≤ 104 :=
  ⟨⟨[("n0", "👤 alice"), ("n1", "⚙️ explorer.exe")], ["n0 --> n1"]⟩, by decide,
    process_edge_cap [scenarioRec] _ (by decide)⟩

set_option maxRecDepth 200000 in
/-- C2, counterexample.  26 records each contributing four fresh edges
would naturally produce 104 distinct edges; the compiled graph indeed has
104 edges — more than 100, not exactly 100 as the claim states. -/
theorem process_edge_cap_counterexample :
    (processGraph capInput true).map (fun g => g.edges.length) = some 104
    ∧ (104 : Nat) ≠ 100 ∧ 100 < (104 : Nat) :=
  ⟨by decide, by decide, by decide⟩

/-- C9.  The network-chain risk tier: score ≥ 90 yields the high-risk
marker, 70 ≤ score < 90 medium, otherwise low; and the policy node label
of a record with score 92 / 75 / 10 carries the respective marker. -/
theorem risk_tier (s : Int) :
    (90 ≤ s → getRisk s = "🔴 High Risk")
    ∧ (70 ≤ s → s < 90 → getRisk s = "🟡 Medium Risk")
    ∧ (s < 70 → getRisk s = "🟢 Low Risk")
    ∧ (networkGraph [scoreRec 92] true).map (fun g => lookupAssoc g.nodes "n4")
        = some (some "🛡️ ✅ ALLOWED<br/>Default Rule<br/>Miscellaneous · Score: 92 (🔴 High Risk)")
    ∧ (networkGraph [scoreRec 75] true).map (fun g => lookupAssoc g.nodes "n4")
        = some (some "🛡️ ✅ ALLOWED<br/>Default Rule<br/>Miscellaneous · Score: 75 (🟡 Medium Risk)")
    ∧ (networkGraph [scoreRec 10] true).map (fun g => lookupAssoc g.nodes "n4")
        = some (some "🛡️ ✅ ALLOWED<br/>Default Rule<br/>Miscellaneous · Score: 10 (🟢 Low Risk)") := by
  refine ⟨fun h => ?_, fun h1 h2 => ?_, fun h => ?_, by decide, by decide, by decide⟩
  · rw [getRisk, if_pos h]
  · rw [getRisk, if_neg (by omega), if_pos h1]
  · rw [getRisk, if_neg (by omega), if_neg (by omega)]

/-- The network-chain compilation is a function of the filtered, sampled
batch alone. -/
lemma networkGraph_char (xs : List Detection) :
    networkGraph xs true =
      (if ((xs.filter netEligible).take 50).length = 0 then none
       else
         let s := ((xs.filter netEligible).take 50).foldl networkStep freshNetState
         some ⟨s.nodes, s.nodeClasses, s.edges⟩) := by
  unfold networkGraph networkGraphFrom
  by_cases hx : xs.length = 0
  · have hnil : xs = [] := List.length_eq_zero.mp hx
    subst hnil; simp
  · simp [hx]

/-- C4, amended.  The process chain samples the first 150 input records,
so records past position 150 never contribute.  The network chain filters
to network-eligible records first and samples 50 of those, so its output
is a function of the first 50 eligible records — an input record past
position 50 can still contribute when earlier records are ineligible. -/
theorem sampling_bounds :
    (∀ (a : Bool) (xs : List Detection), processGraph xs a = processGraph (xs.take 150) a)
    ∧ (∀ xs ys : List Detection,
        (xs.filter netEligible).take 50 = (ys.filter netEligible).take 50 →
        networkGraph xs true = networkGraph ys true) := by
  constructor
  · intro a xs
    cases a with
    | false => simp [processGraph, processGraphFrom]
    | true =>
        by_cases hx : xs.length = 0
        · have hnil : xs = [] := List.length_eq_zero.mp hx
          subst hnil; simp
        · have h2 : ¬(xs.take 150).length = 0 := by
            rw [List.length_take]; omega
          simp [processGraph, processGraphFrom, hx, h2, List.take_take]
  · intro xs ys h
    rw [networkGraph_char xs, networkGraph_char ys, h]

/-- Witness for C4: prepending an ineligible record leaves the sampled
batch, and hence the compiled network graph, unchanged. -/
theorem sampling_bounds_witness :
    networkGraph [eligibleRec] true = networkGraph [fillerRec, eligibleRec] true :=
  sampling_bounds.2 [eligibleRec] [fillerRec, eligibleRec] (by decide)

/-- C4, counterexample.  50 ineligible records followed by one eligible
record: truncating the input to its first 50 records yields no graph at
all, while the full input compiles a graph whose destination node comes
from the record at input position 51 — which the claim says can never
contribute. -/
theorem sampling_counterexample :
    posInput.length = 51
    ∧ networkGraph (posInput.take 50) true = none
    ∧ (networkGraph posInput true).map (fun g => lookupAssoc g.nodes "n3")
        = some (some "📍 1.2.3.4<br/>INT · No TLS") :=
  ⟨by decide, by decide, by decide⟩

/-- Witness for C9 at concrete scores. -/
theorem risk_tier_witness :
    getRisk 92 = "🔴 High Risk" ∧ getRisk 75 = "🟡 Medium Risk" ∧ getRisk 10 = "🟢 Low Risk" :=
  ⟨(risk_tier 92).1 (by decide), (risk_tier 75).2.1 (by decide) (by decide),
   (risk_tier 10).2.2.1 (by decide)⟩

/-- Every record kept by the first-per-key pass has its key outside the
incoming `seen` set. -/
lemma dedupBy_key_notMem (key : Detection → String) :
    ∀ (l : List Detection) (seen : List String) (d : Detection),
      d ∈ dedupBy key l seen → key d ∉ seen := by
  intro l
  induction l with
  | nil => intro seen d hd; simp [dedupBy] at hd
  | cons a as ih =>
      intro seen d hd
      by_cases h : key a ∈ seen
      · rw [dedupBy, if_pos h] at hd
        exact ih seen d hd
      · rw [dedupBy, if_neg h] at hd
        rcases List.mem_cons.mp hd with rfl | hd2
        · exact h
        · intro hmem
          exact ih _ d hd2 (List.mem_cons_of_mem _ hmem)

/-- The keys of the first-per-key output are pairwise distinct. -/
lemma dedupBy_keys_nodup (key : Detection → String) :
    ∀ (l : List Detection) (seen : List String),
      ((dedupBy key l seen).map key).Nodup := by
  intro l
  induction l with
  | nil => intro seen; simp [dedupBy]
  | cons a as ih =>
      intro seen
      by_cases h : key a ∈ seen
      · rw [dedupBy, if_pos h]; exact ih seen
      · rw [dedupBy, if_neg h]
        simp only [List.map_cons, List.nodup_cons]
        refine ⟨?_, ih _⟩
        intro hmem
        rcases List.mem_map.mp hmem with ⟨e, he, hke⟩
        apply dedupBy_key_notMem key as _ e he
        rw [hke]
        exact List.mem_cons_self _ _

/-- A list whose keys avoid `seen` and are pairwise distinct passes the
first-per-key loop unchanged. -/
lemma dedupBy_fixed (key : Detection → String) :
    ∀ (l : List Detection) (seen : List String),
      (∀ d ∈ l, key d ∉ seen) → ((l.map key).Nodup) → dedupBy key l seen = l := by
  intro l
  induction l with
  | nil => intro seen _ _; rfl
  | cons a as ih =>
      intro seen hns hnd
      rw [List.map_cons, List.nodup_cons] at hnd
      obtain ⟨hka, hnd2⟩ := hnd
      have ha : key a ∉ seen := hns a (List.mem_cons_self _ _)
      rw [dedupBy, if_neg ha]
      congr 1
      apply ih
      · intro d hd hmem
        rcases List.mem_cons.mp hmem with heq | hseen
        · have hm := List.mem_map_of_mem key hd
          rw [heq] at hm
          exact hka hm
        · exact hns d (List.mem_cons_of_mem _ hd) hseen
      · exact hnd2

/-- The explicit first-per-key loop equals the spec's single forward fold,
relative to any `seen` set agreeing with the accumulated keys. -/
lemma dedupBy_eq_foldl (key : Detection → String) :
    ∀ (xs acc : List Detection) (seen : List String),
      (∀ s, s ∈ seen ↔ s ∈ acc.map key) →
      acc ++ dedupBy key xs seen
        = xs.foldl (fun acc2 d => if key d ∈ acc2.map key then acc2 else acc2 ++ [d]) acc := by
  intro xs
  induction xs with
  | nil => intro acc seen h; simp [dedupBy]
  | cons a as ih =>
      intro acc seen h
      by_cases hk : key a ∈ seen
      · rw [dedupBy, if_pos hk, List.foldl_cons, if_pos ((h _).mp hk)]
        exact ih acc seen h
      · rw [dedupBy, if_neg hk, List.foldl_cons, if_neg (fun hx => hk ((h _).mpr hx))]
        have hsplit : acc ++ a :: dedupBy key as (key a :: seen)
            = (acc ++ [a]) ++ dedupBy key as (key a :: seen) := by simp
        rw [hsplit]
        apply ih
        intro s
        simp only [List.mem_cons, List.map_append, List.mem_append, List.map_cons,
          List.map_nil, List.mem_singleton, List.not_mem_nil, or_false]
        rw [h s]
        tauto

/-- In a list with pairwise-distinct keys, at most one record can match
any fixed key value. -/
lemma length_filter_key_le_one (key : Detection → String) (c : String) :
    ∀ l : List Detection, ((l.map key).Nodup) →
      (l.filter (fun d => key d = c)).length ≤ 1 := by
  intro l
  induction l with
  | nil => intro _; simp
  | cons a as ih =>
      intro hnd
      rw [List.map_cons, List.nodup_cons] at hnd
      obtain ⟨hka, hnd2⟩ := hnd
      by_cases hc : key a = c
      · rw [List.filter_cons_of_pos (by simp [hc])]
        have hnil : as.filter (fun d => key d = c) = [] := by
          apply List.filter_eq_nil_iff.mpr
          intro e he hke
          simp only [decide_eq_true_eq] at hke
          apply hka
          have hm := List.mem_map_of_mem key he
          rw [hke, ← hc] at hm
          exact hm
        rw [hnil]
        simp
      · rw [List.filter_cons_of_neg (by simp [hc])]
        exact ih hnd2

/-- Every record kept by the unique filter has a comparison key outside
the incoming `seen` set (in particular its field value is truthy). -/
lemma uniqueFilter_key_some (f : Detection → Option String) :
    ∀ (l : List Detection) (seen : List String) (d : Detection),
      d ∈ uniqueFilter f l seen → ∃ k, uniqueKeyOf f d = some k ∧ k ∉ seen := by
  intro l
  induction l with
  | nil => intro seen d hd; simp [uniqueFilter] at hd
  | cons a as ih =>
      intro seen d hd
      cases hfa : f a with
      | none =>
          simp only [uniqueFilter, hfa] at hd
          exact ih seen d hd
      | some v =>
          by_cases hv : v = ""
          · simp only [uniqueFilter, hfa, if_pos hv] at hd
            exact ih seen d hd
          · by_cases hk : jsTrim (jsToLower v) ∈ seen
            · simp only [uniqueFilter, hfa, if_neg hv, if_pos hk] at hd
              exact ih seen d hd
            · simp only [uniqueFilter, hfa, if_neg hv, if_neg hk] at hd
              rcases List.mem_cons.mp hd with rfl | hd2
              · exact ⟨jsTrim (jsToLower v), by simp [uniqueKeyOf, hfa, hv], hk⟩
              · obtain ⟨k, hk1, hk2⟩ := ih _ d hd2
                exact ⟨k, hk1, fun hmem => hk2 (List.mem_cons_of_mem _ hmem)⟩

/-- The comparison keys of the unique-filter output are pairwise
distinct. -/
lemma uniqueFilter_keys_nodup (f : Detection → Option String) :
    ∀ (l : List Detection) (seen : List String),
      ((uniqueFilter f l seen).map (uniqueKeyOf f)).Nodup := by
  intro l
  induction l with
  | nil => intro seen; simp [uniqueFilter]
  | cons a as ih =>
      intro seen
      cases hfa : f a with
      | none => simp only [uniqueFilter, hfa]; exact ih seen
      | some v =>
          by_cases hv : v = ""
          · simp only [uniqueFilter, hfa, if_pos hv]; exact ih seen
          · by_cases hk : jsTrim (jsToLower v) ∈ seen
            · simp only [uniqueFilter, hfa, if_neg hv, if_pos hk]; exact ih seen
            · simp only [uniqueFilter, hfa, if_neg hv, if_neg hk]
              simp only [List.map_cons, List.nodup_cons]
              refine ⟨?_, ih _⟩
              intro hmem
              rcases List.mem_map.mp hmem with ⟨e, he, hke⟩
              obtain ⟨k, hk1, hk2⟩ := uniqueFilter_key_some f as _ e he
              apply hk2
              rw [hk1] at hke
              simp only [uniqueKeyOf, hfa] at hke
              rw [if_neg hv] at hke
              rcases Option.some.inj hke with rfl
              exact List.mem_cons_self _ _

/-- A list of truthy-valued records with pairwise-distinct comparison keys
avoiding `seen` passes the unique filter unchanged. -/
lemma uniqueFilter_fixed (f : Detection → Option String) :
    ∀ (l : List Detection) (seen : List String),
      (∀ d ∈ l, ∃ k, uniqueKeyOf f d = some k ∧ k ∉ seen) →
      ((l.map (uniqueKeyOf f)).Nodup) → uniqueFilter f l seen = l := by
  intro l
  induction l with
  | nil => intro seen _ _; rfl
  | cons a as ih =>
      intro seen hns hnd
      rw [List.map_cons, List.nodup_cons] at hnd
      obtain ⟨hka, hnd2⟩ := hnd
      obtain ⟨k, hk, hkn⟩ := hns a (List.mem_cons_self _ _)
      cases hfa : f a with
      | none =>
          simp only [uniqueKeyOf, hfa] at hk
          exact absurd hk (by simp)
      | some v =>
          by_cases hv : v = ""
          · simp only [uniqueKeyOf, hfa] at hk
            rw [if_pos hv] at hk
            exact absurd hk (by simp)
          · simp only [uniqueKeyOf, hfa] at hk
            rw [if_neg hv] at hk
            rcases Option.some.inj hk with rfl
            simp only [uniqueFilter, hfa, if_neg hv, if_neg hkn]
            congr 1
            apply ih
            · intro d hd
              obtain ⟨k2, hk2, hk2n⟩ := hns d (List.mem_cons_of_mem _ hd)
              refine ⟨k2, hk2, fun hmem => ?_⟩
              rcases List.mem_cons.mp hmem with heq | hseen
              · apply hka
                have hm := List.mem_map_of_mem (uniqueKeyOf f) hd
                rw [hk2, heq] at hm
                simp only [uniqueKeyOf, hfa]
                rw [if_neg hv]
                exact hm
              · exact hk2n hseen
            · exact hnd2

/-- C7.  Deduplication is idempotent for the prompt-path pass (with and
without its limit, by the same limit) and for the UI unique filter. -/
theorem dedupe_idempotent :
    (∀ xs : List Detection,
        dedupBy promptKey (dedupBy promptKey xs []) [] = dedupBy promptKey xs [])
    ∧ (∀ (xs : List Detection) (limit : Nat),
        formatPromptSample (formatPromptSample xs limit) limit = formatPromptSample xs limit)
    ∧ (∀ (f : Detection → Option String) (xs : List Detection),
        uniqueFilter f (uniqueFilter f xs []) [] = uniqueFilter f xs []) := by
  refine ⟨fun xs => ?_, fun xs limit => ?_, fun f xs => ?_⟩
  · exact dedupBy_fixed promptKey _ [] (by simp) (dedupBy_keys_nodup promptKey xs [])
  · unfold formatPromptSample
    have h1 : dedupBy promptKey ((dedupBy promptKey xs []).take limit) []
        = (dedupBy promptKey xs []).take limit := by
      apply dedupBy_fixed
      · simp
      · rw [List.map_take]
        exact List.Nodup.sublist (List.take_sublist _ _)
          (dedupBy_keys_nodup promptKey xs [])
    rw [h1, List.take_take, min_self]
  · apply uniqueFilter_fixed
    · intro d hd
      obtain ⟨k, hk1, _⟩ := uniqueFilter_key_some f xs [] d hd
      exact ⟨k, hk1, by simp⟩
    · exact uniqueFilter_keys_nodup f xs []

/-- C8.  The prompt-path deduplication keeps exactly the first record per
distinct resolved key (`processName`, else `processFilePath`, else the
empty string) in first-occurrence order — the spec's single forward fold —
then truncates to the first `limit` records; and all records whose key
resolves empty share one bucket, so at most one keyless record survives. -/
theorem prompt_dedupe_firstPerKey :
    (∀ (xs : List Detection) (limit : Nat),
        formatPromptSample xs limit = (specFirstPerKey promptKey xs).take limit)
    ∧ (∀ xs : List Detection,
        ((dedupBy promptKey xs []).filter (fun d => promptKey d = "")).length ≤ 1) := by
  constructor
  · intro xs limit
    unfold formatPromptSample specFirstPerKey
    congr 1
    have h := dedupBy_eq_foldl promptKey xs [] [] (by simp)
    simpa using h
  · intro xs
    exact length_filter_key_le_one promptKey "" _ (dedupBy_keys_nodup promptKey xs [])

/-- C10.  The UI unique filter drops every record whose key-field value is
absent or falsy (no keyless record passes through), and compares keys on
the lower-cased, trimmed string value: two truthy records whose values
agree up to case and surrounding whitespace collapse to the first. -/
theorem uniqueFilter_drops_falsy :
    (∀ (f : Detection → Option String) (xs : List Detection) (d : Detection),
        d ∈ uniqueFilter f xs [] → ∃ s, f d = some s ∧ s ≠ "")
    ∧ (∀ (f : Detection → Option String) (d1 d2 : Detection) (v1 v2 : String),
        f d1 = some v1 → v1 ≠ "" → f d2 = some v2 → v2 ≠ "" →
        jsTrim (jsToLower v1) = jsTrim (jsToLower v2) →
        uniqueFilter f [d1, d2] [] = [d1]) := by
  constructor
  · intro f xs d hd
    obtain ⟨k, hk, _⟩ := uniqueFilter_key_some f xs [] d hd
    cases hfa : f d with
    | none =>
        simp only [uniqueKeyOf, hfa] at hk
        exact absurd hk (by simp)
    | some v =>
        by_cases hv : v = ""
        · simp only [uniqueKeyOf, hfa] at hk
          rw [if_pos hv] at hk
          exact absurd hk (by simp)
        · exact ⟨v, rfl, hv⟩
  · intro f d1 d2 v1 v2 h1 hv1 h2 hv2 hkey
    simp [uniqueFilter, h1, h2, hv1, hv2, hkey]

/-- Records exercising the unique filter's case/whitespace-insensitive
key comparison. -/
def mixedCaseRec : Detection := { processName := some "AB" }

/-- A record whose key equals `mixedCaseRec`'s after lower-casing and
trimming. -/
def trailingSpaceRec : Detection := { processName := some "ab " }

/-- Witness for C10 at a concrete accessor and concrete records. -/
theorem uniqueFilter_drops_falsy_witness :
    (∃ s, mixedCaseRec.processName = some s ∧ s ≠ "")
    ∧ uniqueFilter (fun d => d.processName) [mixedCaseRec, trailingSpaceRec] []
        = [mixedCaseRec] :=
  ⟨uniqueFilter_drops_falsy.1 (fun d => d.processName) [mixedCaseRec] mixedCaseRec (by decide),
   uniqueFilter_drops_falsy.2 (fun d => d.processName) mixedCaseRec trailingSpaceRec
     "AB" "ab " rfl (by decide) rfl (by decide) (by decide)⟩

end VisionOne
